import Mathlib

/-!
Shallow embedding of the recipient-validation, transaction-rendering and
hardware-signer multisig-registration parts of the LWK wallet engine
(`lwk_wollet/src/model.rs`, `jade/src/register_multisig.rs`), together with
theorems settling the specification's claims about them.

Strings are modelled through their character lists; Rust `u64`/`u32` values
are modelled as `Nat` (overflow is made explicit where the source checks it);
fixed-size byte arrays of the external `elements` library are modelled as
`List Nat` of the corresponding length.
-/

namespace LWK

/-! ### Character-level helpers mirroring the textual encodings used by the
Rust standard library and the `elements` crate (decimal `u64` display,
lowercase hex display, hex parsing). -/

/-- Decimal digit characters of a `Nat`, most significant first: the standard
decimal rendering used by Rust's `u64` `Display`. -/
def decChars (n : Nat) : List Char :=
  if _h : n < 10 then [Nat.digitChar n]
  else decChars (n / 10) ++ [Nat.digitChar (n % 10)]
  decreasing_by exact Nat.div_lt_self (by omega) (by omega)

/-- Lowercase hex rendering of one byte (two nibbles, high first). -/
def hexByteChars (b : Nat) : List Char :=
  [Nat.digitChar (b / 16 % 16), Nat.digitChar (b % 16)]

/-- Lowercase hex rendering of a byte string, as the `elements` crate displays
asset ids and blinding factors. -/
def hexChars (bytes : List Nat) : List Char :=
  (bytes.map hexByteChars).flatten

/-- Whether a character is a hexadecimal digit (either case), as accepted by
the hex parser behind `AssetId::from_str`. -/
def isHexDigitChar (c : Char) : Bool :=
  (('0' ≤ c ∧ c ≤ '9') ∨ ('a' ≤ c ∧ c ≤ 'f') ∨ ('A' ≤ c ∧ c ≤ 'F') : Prop)

/-- Numeric value of a hexadecimal digit character. -/
def hexVal (c : Char) : Nat :=
  if '0' ≤ c ∧ c ≤ '9' then c.toNat - '0'.toNat
  else if 'a' ≤ c ∧ c ≤ 'f' then c.toNat - 'a'.toNat + 10
  else c.toNat - 'A'.toNat + 10

/-- Decode a hex character list into bytes, two characters per byte. -/
def decodeHex : List Char → List Nat
  | c₁ :: c₂ :: rest => (hexVal c₁ * 16 + hexVal c₂) :: decodeHex rest
  | _ => []

/-- Rust's `str::split(':')`: the list of colon-separated fields, in order;
an input with no colon yields one field, possibly empty. -/
def splitColon : List Char → List (List Char)
  | [] => [[]]
  | c :: rest =>
    match splitColon rest, decEq c ':' with
    | r, isTrue _ => [] :: r
    | [], isFalse _ => [[c]]
    | h :: t, isFalse _ => (c :: h) :: t

/-! ### Error model

Modelled from the spec: the engine's error taxonomy (§7) — `InvalidAmount`
(zero-amount recipient), `ParseFailure` (malformed address / asset id /
string-encoded recipient, carrying a description), `Generic` (catch-all with
a message). Only the variants reachable from the embedded code are included;
the `lwk_wollet` error enum itself is outside the provided sources. -/
inductive Error where
  | InvalidAmount
  | ParseFailure (msg : String)
  | Generic (msg : String)
deriving DecidableEq, Repr

/-- A 32-byte asset identifier of the `elements` library, kept as its bytes. -/
structure AssetId where
  bytes : List Nat
deriving DecidableEq, Repr

/-- Modelled from the spec: `AssetId::from_str` of the external `elements`
library — a non-empty string must parse as a 32-byte (64 hex character) asset
id, else it fails with a parse error. -/
def AssetId.from_str (s : String) : Except Error AssetId :=
  if s.data.length = 64 ∧ s.data.all isHexDigitChar then
    .ok ⟨decodeHex s.data⟩
  else
    .error (.ParseFailure s)

/-- The network's compressed blinding public key type, kept as its bytes. -/
structure PublicKey where
  bytes : List Nat
deriving DecidableEq, Repr

/-- A script pubkey, kept as its bytes. -/
structure Script where
  bytes : List Nat
deriving DecidableEq, Repr

/-- The Liquid mainnet policy (L-BTC) asset id. -/
def liquidPolicyAsset : AssetId :=
  ⟨decodeHex "6f0279e9ed041c3d710a9f57d0c02928416460c4b722ae3457a11eec381c526d".data⟩

/-- The Liquid testnet policy asset id. -/
def liquidTestnetPolicyAsset : AssetId :=
  ⟨decodeHex "144c654344aa716d6f3abcc1ca90e5641e4e2a7f633bc09fe3baf64585819a49".data⟩

/-- The network the wallet operates on; regtest carries its policy asset. -/
inductive ElementsNetwork where
  | liquid
  | liquidTestnet
  | elementsRegtest (policyAsset : AssetId)
deriving DecidableEq, Repr

/-- The network's default (policy) asset. -/
def ElementsNetwork.policy_asset : ElementsNetwork → AssetId
  | .liquid => liquidPolicyAsset
  | .liquidTestnet => liquidTestnetPolicyAsset
  | .elementsRegtest a => a

/-- A confidential address: its script pubkey and optional blinding key.
Only the two fields read by `Recipient::from_address` are modelled. -/
structure Address where
  script_pubkey : Script
  blinding_pubkey : Option PublicKey
deriving DecidableEq, Repr

/-- Modelled from the spec: `validate_address` (`lwk_wollet/src/pset_create.rs`,
outside the provided sources) — any string other than the burn sentinel must
parse as a network-correct address, else validation fails with a parse error,
and on success it yields the address's own script and optional blinding
public key. The address encoding itself belongs to the external `elements`
library; it is modelled here as a hex encoding of the script bytes, which
preserves the contract the claims rely on: success yields an `Address`, and
every failure is a `ParseFailure`, never `InvalidAmount`. -/
def validate_address (s : String) (_network : ElementsNetwork) :
    Except Error Address :=
  if s.data ≠ [] ∧ s.data.all isHexDigitChar ∧ s.data.length % 2 = 0 then
    .ok ⟨⟨decodeHex s.data⟩, none⟩
  else
    .error (.ParseFailure s)

/-- Modelled from the spec: `burn_script()` of `lwk_common` (outside the
provided sources) — one fixed, network-independent, provably unspendable
script (an `OP_RETURN` script). -/
def burn_script : Script := ⟨[0x6a]⟩

/-! ### Recipients (`lwk_wollet/src/model.rs`) -/

/-- A validated recipient of a transaction. -/
structure Recipient where
  satoshi : Nat
  script_pubkey : Script
  blinding_pubkey : Option PublicKey
  asset : AssetId
deriving DecidableEq, Repr

/-- Embedding of `Recipient::from_address`. -/
def Recipient.from_address (satoshi : Nat) (address : Address)
    (asset : AssetId) : Recipient :=
  { satoshi := satoshi
    script_pubkey := address.script_pubkey
    blinding_pubkey := address.blinding_pubkey
    asset := asset }

/-- A not-yet validated recipient of a transaction. -/
structure UnvalidatedRecipient where
  satoshi : Nat
  address : String
  asset : String
deriving DecidableEq, Repr

/-- Rust's `u64::from_str`: an optional leading `+`, then one or more decimal
digits, rejecting the empty digit string and values not fitting in 64 bits. -/
def parseU64 (s : List Char) : Except Error Nat :=
  let digits := match s with
    | '+' :: rest => rest
    | other => other
  if digits ≠ [] ∧ digits.all (fun c => '0' ≤ c ∧ c ≤ '9') then
    let v := digits.foldl (fun acc c => acc * 10 + (c.toNat - '0'.toNat)) 0
    if v < 2 ^ 64 then .ok v else .error (.ParseFailure (String.mk s))
  else .error (.ParseFailure (String.mk s))

/-- Embedding of `TryFrom<String> for UnvalidatedRecipient`: split on `':'` into exactly
three fields `address:satoshi:assetid`; any other count is a generic error
quoting the malformed string, and the middle field parses as a `u64`. -/
def UnvalidatedRecipient.try_from (value : String) :
    Except Error UnvalidatedRecipient :=
  match splitColon value.data with
  | [a, b, c] =>
    (parseU64 b).map fun sat =>
      { satoshi := sat, address := String.mk a, asset := String.mk c }
  | _ =>
    .error (.Generic
      ("Invalid number of elements in string \"" ++ value ++
        "\", should be \"address:satoshi:assetid"))

/-- Embedding of `UnvalidatedRecipient::validate_asset`: the empty asset string resolves to
the network's policy asset, otherwise the string must parse as an asset id. -/
def UnvalidatedRecipient.validate_asset (r : UnvalidatedRecipient)
    (network : ElementsNetwork) : Except Error AssetId :=
  if r.asset = "" then .ok network.policy_asset
  else AssetId.from_str r.asset

/-- Embedding of `UnvalidatedRecipient::validate_satoshi`: a zero amount is rejected with
`InvalidAmount`. -/
def UnvalidatedRecipient.validate_satoshi (r : UnvalidatedRecipient) :
    Except Error Nat :=
  if r.satoshi = 0 then .error .InvalidAmount
  else .ok r.satoshi

/-- Embedding of `UnvalidatedRecipient::validate`: amount first, then asset, then either
the burn sentinel (fixed unspendable script, no blinding key) or address
validation. -/
def UnvalidatedRecipient.validate (r : UnvalidatedRecipient)
    (network : ElementsNetwork) : Except Error Recipient :=
  match r.validate_satoshi with
  | .error e => .error e
  | .ok satoshi =>
    match r.validate_asset network with
    | .error e => .error e
    | .ok asset =>
      if r.address = "burn" then
        .ok { satoshi := satoshi
              script_pubkey := burn_script
              blinding_pubkey := none
              asset := asset }
      else
        match validate_address r.address network with
        | .error e => .error e
        | .ok address => .ok (Recipient.from_address r.satoshi address asset)

/-! ### Wallet transactions and the proof-of-amounts rendering
(`lwk_wollet/src/model.rs`) -/

/-- Which chain of the descriptor an output belongs to. -/
inductive Chain where
  | external
  | internal
deriving DecidableEq, Repr

/-- A transaction outpoint: the (displayed) txid and the output index. -/
structure OutPoint where
  txid : String
  vout : Nat
deriving DecidableEq, Repr

/-- The raw ledger transaction; its internals are external to the claims and
only its presence in `WalletTx` is modelled. -/
structure Transaction where
  version : Nat
deriving DecidableEq, Repr

/-- The recovered plaintext of a blinded output: value, 32-byte asset id and
the two 32-byte blinding factors. -/
structure TxOutSecrets where
  value : Nat
  asset : AssetId
  value_bf : List Nat
  asset_bf : List Nat
deriving DecidableEq, Repr

/-- Details of a wallet transaction output used in `WalletTx`. -/
structure WalletTxOut where
  outpoint : OutPoint
  script_pubkey : Script
  height : Option Nat
  unblinded : TxOutSecrets
  wildcard_index : Nat
  ext_int : Chain
deriving DecidableEq, Repr

/-- A transaction from the perspective of the wallet: matched input/output
lists mirror the raw transaction's own positions, `none` where the position
is not wallet-owned. -/
structure WalletTx where
  tx : Transaction
  txid : String
  height : Option Nat
  balance : List (AssetId × Int)
  fee : Nat
  type_ : String
  timestamp : Option Nat
  inputs : List (Option WalletTxOut)
  outputs : List (Option WalletTxOut)
deriving DecidableEq, Repr

/-- Embedding of `Display for DisplayTxOutSecrets`: the four-tuple
`value,asset,value-blinding-factor,asset-blinding-factor`, the value in
decimal and the other three fields in hex. -/
def DisplayTxOutSecrets (s : TxOutSecrets) : List Char :=
  decChars s.value ++ ',' :: hexChars s.asset.bytes ++
    ',' :: hexChars s.value_bf ++ ',' :: hexChars s.asset_bf

/-- One pass of the rendering loop in `Display for DisplayWalletTxInputOutputs`
over one of the two lists: each wallet-owned entry is written preceded by a
comma unless it is the first tuple written overall; returns the rendered text
and the final state of the `first` flag. -/
def renderOwned (l : List (Option WalletTxOut)) (first : Bool) :
    List Char × Bool :=
  match l with
  | [] => ([], first)
  | none :: rest => renderOwned rest first
  | some w :: rest =>
    let sep : List Char := if first then [] else [',']
    let (r, f) := renderOwned rest false
    (sep ++ DisplayTxOutSecrets w.unblinded ++ r, f)

/-- Embedding of `Display for DisplayWalletTxInputOutputs`: the rendering loop over the
inputs, then over the outputs, threading the `first` flag. -/
def DisplayWalletTxInputOutputs (tx : WalletTx) : String :=
  let (s₁, f₁) := renderOwned tx.inputs true
  let (s₂, _) := renderOwned tx.outputs f₁
  String.mk (s₁ ++ s₂)

/-- Embedding of `WalletTx::unblinded_url`. -/
def WalletTx.unblinded_url (tx : WalletTx) (explorer_url : String) : String :=
  explorer_url ++ "tx/" ++ tx.txid ++ "#blinded=" ++
    DisplayWalletTxInputOutputs tx

/-- The spec's description of the rendering: the comma-joined concatenation of
a list of pieces, with a single comma between consecutive pieces. -/
def commaJoin : List (List Char) → List Char
  | [] => []
  | [t] => t
  | t :: rest => t ++ ',' :: commaJoin rest

/-- The spec's description of the tuple list: the four-tuples of every
wallet-owned input followed by every wallet-owned output, each list in the
transaction's own position order, skipping positions that are `none`. -/
def ownedTuples (tx : WalletTx) : List (List Char) :=
  (tx.inputs ++ tx.outputs).filterMap
    (Option.map fun w => DisplayTxOutSecrets w.unblinded)

/-- The wallet-owned four-tuples of a single list of optional outputs, in
position order. -/
def ownedTuplesOf (l : List (Option WalletTxOut)) : List (List Char) :=
  l.filterMap (Option.map fun w => DisplayTxOutSecrets w.unblinded)

/-- Rendering of a tuple list in which every tuple is preceded by a comma:
what the rendering loop produces once its `first` flag is spent. -/
def preJoin (l : List (List Char)) : List Char :=
  (l.map (List.cons ',')).flatten

/-! ### Hardware-signer multisig registration (`jade/src/register_multisig.rs`) -/

/-- The network identifier sent to the Jade hardware signer. -/
inductive Network where
  | liquid
  | testnetLiquid
  | localtestLiquid
deriving DecidableEq, Repr

/-- A BIP32 extended public key of the external `bitcoin` library, kept as its
string encoding. -/
structure ExtendedPubKey where
  encoding : String
deriving DecidableEq, Repr

/-- One co-signer entry of the multisig registration payload: a fingerprint
(bytes), the derivation path to its xpub, the xpub itself, and the further
path from the xpub to the script's keys. -/
structure JadeSigner where
  fingerprint : List Nat
  derivation : List Nat
  xpub : ExtendedPubKey
  path : List Nat
deriving DecidableEq, Repr

/-- The multisig descriptor sent to the Jade hardware signer. -/
structure JadeDescriptor where
  variant : String
  sorted : Bool
  threshold : Nat
  master_blinding_key : List Nat
  signers : List JadeSigner
deriving DecidableEq, Repr

/-- The full multisig registration payload. -/
structure RegisterMultisigParams where
  network : Network
  multisig_name : String
  descriptor : JadeDescriptor
deriving DecidableEq, Repr

/-- The distinct shape violations the engine rejects before sending a
multisig registration to the device. -/
inductive RegisterMultisigError where
  | NameTooLong
  | InvalidMasterBlindingKeyLength
  | NoSigners
  | InvalidThreshold
deriving DecidableEq, Repr

/-- Modelled from the spec: the engine-side message-shape validation run
before any multisig registration message is sent to the hardware signer
(§4.5; the sending code is outside the provided sources, which hold only the
payload declarations) — name length ≤ 16, master blinding key exactly 32
bytes, at least one signer, threshold in `[1, co-signer count]`. -/
def validate_register_multisig (p : RegisterMultisigParams) :
    Except RegisterMultisigError Unit :=
  if 16 < p.multisig_name.length then
    .error .NameTooLong
  else if p.descriptor.master_blinding_key.length ≠ 32 then
    .error .InvalidMasterBlindingKeyLength
  else if p.descriptor.signers.length = 0 then
    .error .NoSigners
  else if ¬ (1 ≤ p.descriptor.threshold ∧
      p.descriptor.threshold ≤ p.descriptor.signers.length) then
    .error .InvalidThreshold
  else
    .ok ()

/-- Modelled from the spec: the consistency conditions the device itself
checks on a registration payload (§4.5: threshold ≤ co-signer count,
fingerprint lengths — 4 bytes per the data model —, 32-byte blinding key). -/
def device_validates (p : RegisterMultisigParams) : Bool :=
  decide (p.descriptor.threshold ≤ p.descriptor.signers.length) &&
  p.descriptor.signers.all (fun s => s.fingerprint.length == 4) &&
  (p.descriptor.master_blinding_key.length == 32)

/-! ### Helper lemmas -/

/-- Decoding hex yields one byte per two characters. -/
theorem decodeHex_length : ∀ l : List Char, (decodeHex l).length = l.length / 2
  | [] => rfl
  | [_] => by simp [decodeHex]
  | c₁ :: c₂ :: rest => by
    simp [decodeHex, decodeHex_length rest]
    omega

/-- Asset validation can only fail with a parse error. -/
theorem validate_asset_error (r : UnvalidatedRecipient) (n : ElementsNetwork)
    (e : Error) (h : r.validate_asset n = .error e) :
    ∃ s, e = .ParseFailure s := by
  unfold UnvalidatedRecipient.validate_asset AssetId.from_str at h
  split at h
  · exact absurd h (by simp)
  · split at h
    · exact absurd h (by simp)
    · exact ⟨r.asset, by injection h with h; exact h.symm⟩

/-- Address validation can only fail with a parse error. -/
theorem validate_address_error (s : String) (n : ElementsNetwork)
    (e : Error) (h : validate_address s n = .error e) :
    ∃ t, e = .ParseFailure t := by
  unfold validate_address at h
  split at h
  · exact absurd h (by simp)
  · exact ⟨s, by injection h with h; exact h.symm⟩

/-! ### Claims about recipient validation -/

/-- C3: for every `UnvalidatedRecipient` `r` and network `n`,
`r.validate n` returns `InvalidAmount` if and only if `r.satoshi` is zero;
when `r.satoshi` is nonzero, `validate` never returns `InvalidAmount`. -/
theorem claim_C3_invalid_amount_iff_zero (r : UnvalidatedRecipient)
    (n : ElementsNetwork) :
    r.validate n = .error .InvalidAmount ↔ r.satoshi = 0 := by
  by_cases h : r.satoshi = 0
  · simp [UnvalidatedRecipient.validate, UnvalidatedRecipient.validate_satoshi, h]
  · simp only [h, iff_false]
    have hs : r.validate_satoshi = .ok r.satoshi := by
      simp [UnvalidatedRecipient.validate_satoshi, h]
    unfold UnvalidatedRecipient.validate
    rw [hs]
    cases ha : r.validate_asset n with
    | error e =>
      obtain ⟨s, rfl⟩ := validate_asset_error r n e ha
      simp
    | ok a =>
      by_cases hb : r.address = "burn"
      · simp [hb]
      · simp only [hb, if_false]
        cases hd : validate_address r.address n with
        | error e =>
          obtain ⟨t, rfl⟩ := validate_address_error r.address n e hd
          simp
        | ok addr => simp

/-- C9: for every `UnvalidatedRecipient` with zero `satoshi` and every
network, `validate` returns `InvalidAmount` regardless of the address and
asset fields: the amount check runs before the asset and address checks. -/
theorem claim_C9_amount_checked_first (r : UnvalidatedRecipient)
    (n : ElementsNetwork) (h : r.satoshi = 0) :
    r.validate n = .error .InvalidAmount := by
  simp [UnvalidatedRecipient.validate, UnvalidatedRecipient.validate_satoshi, h]

/-- Witness for C9: a zero-amount recipient whose address and asset are both
malformed still fails with `InvalidAmount`. -/
theorem claim_C9_amount_checked_first_witness :
    UnvalidatedRecipient.validate
      { satoshi := 0, address := "not an address!", asset := "zz" }
      .liquid = .error .InvalidAmount :=
  claim_C9_amount_checked_first
    { satoshi := 0, address := "not an address!", asset := "zz" } .liquid rfl

/-- C4: for every nonzero amount, every asset string accepted by asset
validation, and every network `n`, validating a recipient whose address is
the literal `"burn"` succeeds and yields a recipient whose script is the one
fixed `burn_script` (a constant independent of `n`) and whose blinding
public key is `none`. -/
theorem claim_C4_burn_fixed_script (sat : Nat) (asset : String)
    (n : ElementsNetwork) (hsat : sat ≠ 0)
    (ha : ∃ a, UnvalidatedRecipient.validate_asset
      { satoshi := sat, address := "burn", asset := asset } n = .ok a) :
    ∃ a, UnvalidatedRecipient.validate
      { satoshi := sat, address := "burn", asset := asset } n =
      .ok { satoshi := sat, script_pubkey := burn_script,
            blinding_pubkey := none, asset := a } := by
  obtain ⟨a, ha⟩ := ha
  refine ⟨a, ?_⟩
  unfold UnvalidatedRecipient.validate
  have hs : UnvalidatedRecipient.validate_satoshi
      { satoshi := sat, address := "burn", asset := asset } = .ok sat := by
    simp [UnvalidatedRecipient.validate_satoshi, hsat]
  rw [hs, ha]
  simp

/-- Witness for C4: burning 1000 units of the testnet policy asset. -/
theorem claim_C4_burn_fixed_script_witness :
    ∃ a, UnvalidatedRecipient.validate
      { satoshi := 1000, address := "burn", asset := "" } .liquidTestnet =
      .ok { satoshi := 1000, script_pubkey := burn_script,
            blinding_pubkey := none, asset := a } :=
  claim_C4_burn_fixed_script 1000 "" .liquidTestnet (by decide)
    ⟨liquidTestnetPolicyAsset, rfl⟩

/-- C7: asset validation resolves an empty asset string to the network's
policy asset; a non-empty asset string must parse as a 32-byte (64 hex
character) asset id, and otherwise validation fails with a parse error. -/
theorem claim_C7_asset_resolution (r : UnvalidatedRecipient)
    (n : ElementsNetwork) :
    (r.asset = "" → r.validate_asset n = .ok n.policy_asset)
    ∧ (r.asset ≠ "" →
        (r.asset.data.length = 64 ∧ r.asset.data.all isHexDigitChar = true →
          ∃ a, r.validate_asset n = .ok a ∧ a.bytes.length = 32)
        ∧ (¬(r.asset.data.length = 64 ∧ r.asset.data.all isHexDigitChar = true) →
          r.validate_asset n = .error (.ParseFailure r.asset))) := by
  refine ⟨fun h => by simp [UnvalidatedRecipient.validate_asset, h], fun h => ⟨?_, ?_⟩⟩
  · rintro ⟨h64, hhex⟩
    refine ⟨⟨decodeHex r.asset.data⟩, ?_, ?_⟩
    · simp [UnvalidatedRecipient.validate_asset, h, AssetId.from_str, h64, hhex]
    · simp [decodeHex_length, h64]
  · intro hbad
    simp only [UnvalidatedRecipient.validate_asset, AssetId.from_str, if_neg h]
    rw [if_neg hbad]

/-- Witness for C7: the empty asset resolves to the policy asset, a 64-hex
string parses to a 32-byte asset id, and a 2-character string is rejected
with a parse error. -/
theorem claim_C7_asset_resolution_witness :
    UnvalidatedRecipient.validate_asset
      { satoshi := 1, address := "x", asset := "" } .liquid =
      .ok ElementsNetwork.liquid.policy_asset
    ∧ (∃ a, UnvalidatedRecipient.validate_asset
        { satoshi := 1, address := "x",
          asset := "5ac9f65c0efcc4775e0baec4ec03abdde22473cd3cf33c0419ca290e0751b225" }
        .liquid = .ok a ∧ a.bytes.length = 32)
    ∧ UnvalidatedRecipient.validate_asset
        { satoshi := 1, address := "x", asset := "zz" } .liquid =
        .error (.ParseFailure "zz") :=
  ⟨(claim_C7_asset_resolution { satoshi := 1, address := "x", asset := "" }
      .liquid).1 rfl,
   ((claim_C7_asset_resolution
      { satoshi := 1, address := "x",
        asset := "5ac9f65c0efcc4775e0baec4ec03abdde22473cd3cf33c0419ca290e0751b225" }
      .liquid).2 (by decide)).1 (by decide),
   ((claim_C7_asset_resolution { satoshi := 1, address := "x", asset := "zz" }
      .liquid).2 (by decide)).2 (by decide)⟩

/-- C5: `try_from` requires the string to split on `':'` into exactly three
fields; any other count fails with a generic error whose message contains the
malformed string, and with exactly three fields it assigns the first as
address, the second (parsed as an unsigned 64-bit integer) as satoshi, and
the third as asset. -/
theorem claim_C5_try_from_three_fields (s : String) :
    ((splitColon s.data).length ≠ 3 →
      ∃ pre post, UnvalidatedRecipient.try_from s =
        .error (.Generic (pre ++ s ++ post)))
    ∧ ∀ a b c, splitColon s.data = [a, b, c] →
        UnvalidatedRecipient.try_from s =
          (parseU64 b).map fun v =>
            { satoshi := v, address := String.mk a, asset := String.mk c } := by
  constructor
  · intro h
    refine ⟨"Invalid number of elements in string \"",
      "\", should be \"address:satoshi:assetid", ?_⟩
    unfold UnvalidatedRecipient.try_from
    rcases hl : splitColon s.data with _ | ⟨a, _ | ⟨b, _ | ⟨c, _ | ⟨d, t⟩⟩⟩⟩
    · rfl
    · rfl
    · rfl
    · exact absurd (by rw [hl]; rfl) h
    · rfl
  · intro a b c hl
    unfold UnvalidatedRecipient.try_from
    rw [hl]

/-- Witness for C5: a two-field string fails with a generic error quoting it,
and a three-field string is parsed into its components. -/
theorem claim_C5_try_from_three_fields_witness :
    (∃ pre post, UnvalidatedRecipient.try_from "a:b" =
      .error (.Generic (pre ++ "a:b" ++ post)))
    ∧ UnvalidatedRecipient.try_from "x:12:y" =
        (parseU64 "12".data).map fun v =>
          { satoshi := v, address := String.mk "x".data,
            asset := String.mk "y".data } :=
  ⟨(claim_C5_try_from_three_fields "a:b").1 (by decide),
   (claim_C5_try_from_three_fields "x:12:y").2 "x".data "12".data "y".data
     (by decide)⟩

/-- Counterexample for C6: `try_from "addr:0:asset"` does not fail at all — it
succeeds with a zero-satoshi recipient, so in particular it does not fail
with `InvalidAmount`. -/
theorem claim_C6_counterexample :
    UnvalidatedRecipient.try_from "addr:0:asset" =
      .ok { satoshi := 0, address := "addr", asset := "asset" }
    ∧ ∀ e, UnvalidatedRecipient.try_from "addr:0:asset" ≠ .error e := by
  refine ⟨rfl, fun e h => ?_⟩
  rw [show UnvalidatedRecipient.try_from "addr:0:asset" =
    .ok { satoshi := 0, address := "addr", asset := "asset" } from rfl] at h
  exact absurd h (by simp)

/-- C6 (amended): `try_from "addr:0:asset"` succeeds with a zero-satoshi
recipient, and validating that recipient (at any network) fails with
`InvalidAmount`. -/
theorem claim_C6_zero_amount_at_validate :
    UnvalidatedRecipient.try_from "addr:0:asset" =
      .ok { satoshi := 0, address := "addr", asset := "asset" }
    ∧ ∀ n, UnvalidatedRecipient.validate
        { satoshi := 0, address := "addr", asset := "asset" } n =
        .error .InvalidAmount := by
  refine ⟨rfl, fun n => ?_⟩
  simp [UnvalidatedRecipient.validate, UnvalidatedRecipient.validate_satoshi]

/-! ### Claims about multisig registration -/

/-- C2: the engine-side validation accepts a multisig-registration payload
exactly when the name is at most 16 characters, the master blinding key is
exactly 32 bytes, there is at least one co-signer, and the threshold lies in
`[1, number of co-signers]`; every payload violating one of these is
rejected before any message is sent. -/
theorem claim_C2_register_multisig_validation (p : RegisterMultisigParams) :
    validate_register_multisig p = .ok () ↔
      (p.multisig_name.length ≤ 16 ∧
       p.descriptor.master_blinding_key.length = 32 ∧
       1 ≤ p.descriptor.signers.length ∧
       1 ≤ p.descriptor.threshold ∧
       p.descriptor.threshold ≤ p.descriptor.signers.length) := by
  unfold validate_register_multisig
  split_ifs with h1 h2 h3 h4 <;> simp <;> omega

/-- C8: every registration payload that passes the device-side consistency
check has co-signer entries whose fingerprints are exactly 4 bytes (alongside
their derivation path, xpub and further key path), and its threshold is at
most the number of co-signers. -/
theorem claim_C8_cosigner_invariants (p : RegisterMultisigParams)
    (h : device_validates p = true) :
    (∀ s ∈ p.descriptor.signers, s.fingerprint.length = 4)
    ∧ p.descriptor.threshold ≤ p.descriptor.signers.length := by
  simp only [device_validates, Bool.and_eq_true, decide_eq_true_eq,
    List.all_eq_true, beq_iff_eq] at h
  exact ⟨fun s hs => h.1.2 s hs, h.1.1⟩

/-- Witness for C8: a concrete 1-of-1 payload accepted by the device check
has a 4-byte fingerprint and threshold at most the co-signer count. -/
theorem claim_C8_cosigner_invariants_witness :
    (∀ s ∈ [({ fingerprint := [7, 8, 9, 10]
               derivation := [44]
               xpub := ⟨"tpubD6NzV"⟩
               path := [0] } : JadeSigner)],
      s.fingerprint.length = 4) ∧ (1 : Nat) ≤ 1 :=
  claim_C8_cosigner_invariants
    { network := .liquid
      multisig_name := "small"
      descriptor :=
        { variant := "wsh(multi(k))"
          sorted := false
          threshold := 1
          master_blinding_key := List.replicate 32 0
          signers := [{ fingerprint := [7, 8, 9, 10]
                        derivation := [44]
                        xpub := ⟨"tpubD6NzV"⟩
                        path := [0] }] } }
    (by decide)

/-! ### Rendering lemmas -/

/-- Comma-joining a nonempty list is its head followed by the comma-preceded
rendering of the rest. -/
theorem commaJoin_cons : ∀ (t : List Char) (ts : List (List Char)),
    commaJoin (t :: ts) = t ++ preJoin ts
  | _, [] => by simp [commaJoin, preJoin]
  | t, u :: us => by
    have ih := commaJoin_cons u us
    simp only [commaJoin, preJoin, List.map_cons, List.flatten_cons] at ih ⊢
    rw [ih]
    simp

/-- Closed form of one rendering pass: with a fresh `first` flag it renders
the comma-joined tuples, with a spent flag every tuple is preceded by a
comma; the flag comes out spent exactly when it went in spent or a tuple was
written. -/
theorem renderOwned_eq : ∀ (l : List (Option WalletTxOut)) (first : Bool),
    renderOwned l first =
      ((if first then commaJoin (ownedTuplesOf l) else preJoin (ownedTuplesOf l)),
        first && (ownedTuplesOf l).isEmpty)
  | [], first => by
    cases first <;> simp [renderOwned, ownedTuplesOf, commaJoin, preJoin]
  | none :: rest, first => by
    simpa [renderOwned, ownedTuplesOf] using renderOwned_eq rest first
  | some w :: rest, first => by
    have ih := renderOwned_eq rest false
    cases first <;>
      simp [renderOwned, ownedTuplesOf, ih, commaJoin_cons, preJoin]

/-- Comma-joining a concatenation whose first block is nonempty. -/
theorem commaJoin_append : ∀ (A B : List (List Char)), A ≠ [] →
    commaJoin (A ++ B) = commaJoin A ++ preJoin B
  | [], _, h => absurd rfl h
  | [t], B, _ => by simp [commaJoin_cons, commaJoin, preJoin]
  | t :: u :: us, B, _ => by
    have ih := commaJoin_append (u :: us) B (by simp)
    simp only [List.cons_append] at ih ⊢
    simp only [commaJoin]
    rw [ih]
    simp

/-- The rendering loop over inputs then outputs produces exactly the
comma-joined owned tuples. -/
theorem display_eq_commaJoin (tx : WalletTx) :
    DisplayWalletTxInputOutputs tx = String.mk (commaJoin (ownedTuples tx)) := by
  have hsplit : ownedTuples tx =
      ownedTuplesOf tx.inputs ++ ownedTuplesOf tx.outputs := by
    simp [ownedTuples, ownedTuplesOf, List.filterMap_append]
  unfold DisplayWalletTxInputOutputs
  rw [renderOwned_eq tx.inputs true, hsplit]
  by_cases h : ownedTuplesOf tx.inputs = []
  · simp [h, renderOwned_eq, commaJoin]
  · have hne : (ownedTuplesOf tx.inputs).isEmpty = false := by
      simp [List.isEmpty_iff, h]
    simp only [if_true, Bool.true_and, hne]
    rw [renderOwned_eq tx.outputs false, commaJoin_append _ _ h]
    simp

/-- Decimal rendering is nonempty and starts with a decimal digit. -/
theorem decChars_head? (n : Nat) :
    ∃ d, d < 10 ∧ (decChars n).head? = some (Nat.digitChar d) := by
  induction n using Nat.strong_induction_on with
  | _ n ih =>
    rw [decChars]
    split
    · next h => exact ⟨n, h, rfl⟩
    · next h =>
      obtain ⟨d, hd, hh⟩ := ih (n / 10) (Nat.div_lt_self (by omega) (by omega))
      have hne : decChars (n / 10) ≠ [] := by
        intro hn; rw [hn] at hh; simp at hh
      exact ⟨d, hd, by rw [List.head?_append_of_ne_nil _ hne]; exact hh⟩

/-- Hex rendering of a nonempty byte string ends with a hex digit. -/
theorem hexChars_getLast? : ∀ (bytes : List Nat), bytes ≠ [] →
    ∃ m, m < 16 ∧ (hexChars bytes).getLast? = some (Nat.digitChar m)
  | [], h => absurd rfl h
  | [b], _ => ⟨b % 16, Nat.mod_lt _ (by omega), by simp [hexChars, hexByteChars]⟩
  | b :: c :: rest, _ => by
    obtain ⟨m, hm, hl⟩ := hexChars_getLast? (c :: rest) (by simp)
    have hne : hexChars (c :: rest) ≠ [] := by
      intro hn; rw [hn] at hl; simp at hl
    have hs : hexChars (b :: c :: rest) =
        hexByteChars b ++ hexChars (c :: rest) := by
      simp [hexChars]
    exact ⟨m, hm, by rw [hs, List.getLast?_append_of_ne_nil _ hne]; exact hl⟩

/-- Dropping a block and a comma separator from the front keeps the last
element, when what follows the separator is nonempty. -/
theorem getLast?_append_comma (X Y : List Char) (h : Y ≠ []) :
    (X ++ ',' :: Y).getLast? = Y.getLast? := by
  rw [List.getLast?_append_cons]
  rw [show (',' :: Y) = [','] ++ Y from rfl, List.getLast?_append_of_ne_nil _ h]

/-- A rendered four-tuple is nonempty and neither starts nor ends with a
comma, provided the asset blinding factor has at least one byte. -/
theorem tuple_head_last (s : TxOutSecrets) (h : s.asset_bf ≠ []) :
    DisplayTxOutSecrets s ≠ [] ∧
    (DisplayTxOutSecrets s).head? ≠ some ',' ∧
    (DisplayTxOutSecrets s).getLast? ≠ some ',' := by
  obtain ⟨d, hd, hh⟩ := decChars_head? s.value
  have hdne : decChars s.value ≠ [] := by
    intro hn; rw [hn] at hh; simp at hh
  obtain ⟨m, hm, hl⟩ := hexChars_getLast? s.asset_bf h
  have habfne : hexChars s.asset_bf ≠ [] := by
    intro hn; rw [hn] at hl; simp at hl
  have hdigit10 : ∀ x < 10, Nat.digitChar x ≠ ',' := by decide
  have hdigit16 : ∀ x < 16, Nat.digitChar x ≠ ',' := by decide
  unfold DisplayTxOutSecrets
  simp only [List.append_assoc, List.cons_append]
  refine ⟨by simp [hdne], ?_, ?_⟩
  · rw [List.head?_append_of_ne_nil _ hdne, hh]
    simp [hdigit10 d hd]
  · rw [getLast?_append_comma _ _ (by simp),
      getLast?_append_comma _ _ (by simp),
      getLast?_append_comma _ _ habfne, hl]
    simp [hdigit16 m hm]

/-- Comma-joining tuples that are nonempty and comma-free at both ends yields
a rendering with no leading and no trailing comma. -/
theorem commaJoin_head_last : ∀ (L : List (List Char)),
    (∀ t ∈ L, t ≠ [] ∧ t.head? ≠ some ',' ∧ t.getLast? ≠ some ',') →
    (commaJoin L).head? ≠ some ',' ∧ (commaJoin L).getLast? ≠ some ','
  | [], _ => by simp [commaJoin]
  | [t], h => by
    have ht := h t (by simp)
    simpa [commaJoin] using ⟨ht.2.1, ht.2.2⟩
  | t :: u :: us, h => by
    have ih := commaJoin_head_last (u :: us)
      (fun x hx => h x (by simp at hx ⊢; tauto))
    have ht := h t (by simp)
    have hu := h u (by simp)
    have hCne : commaJoin (u :: us) ≠ [] := by
      rw [commaJoin_cons]; simp [hu.1]
    have hexp : commaJoin (t :: u :: us) = t ++ ',' :: commaJoin (u :: us) := by
      simp [commaJoin]
    refine ⟨?_, ?_⟩
    · rw [hexp, List.head?_append_of_ne_nil _ ht.1]
      exact ht.2.1
    · rw [hexp, getLast?_append_comma _ _ hCne]
      exact ih.2

/-! ### Claims about the proof-of-amounts rendering -/

/-- C1: for every `WalletTx`, the proof-of-amounts rendering used in the
unblinded URL is the comma-joined concatenation of the four-tuples
`value,asset,value-blinding-factor,asset-blinding-factor` of every
wallet-owned input followed by every wallet-owned output, each list in the
transaction's own position order, skipping positions that are `none`, with a
single comma between consecutive tuples. -/
theorem claim_C1_proof_of_amounts_rendering (tx : WalletTx) :
    DisplayWalletTxInputOutputs tx = String.mk (commaJoin (ownedTuples tx)) :=
  display_eq_commaJoin tx

/-- C10: for every `WalletTx` in which no input and no output position is
wallet-owned, `unblinded_url` returns exactly the explorer URL followed by
`tx/`, the transaction id, and `#blinded=` with an empty fragment; and in
general (whenever the owned entries have nonempty asset blinding factors, as
the 32-byte factors of the source always are) the rendered fragment never
has a leading or trailing comma. -/
theorem claim_C10_empty_fragment_no_stray_commas (tx : WalletTx)
    (url : String) :
    ((∀ i ∈ tx.inputs, i = none) → (∀ o ∈ tx.outputs, o = none) →
      tx.unblinded_url url = url ++ "tx/" ++ tx.txid ++ "#blinded=")
    ∧ ((∀ w : WalletTxOut, some w ∈ tx.inputs ++ tx.outputs →
          w.unblinded.asset_bf ≠ []) →
        (DisplayWalletTxInputOutputs tx).data.head? ≠ some ','
        ∧ (DisplayWalletTxInputOutputs tx).data.getLast? ≠ some ',') := by
  constructor
  · intro hin hout
    have hT : ownedTuples tx = [] := by
      unfold ownedTuples
      rw [List.filterMap_eq_nil_iff]
      intro a ha
      rcases List.mem_append.mp ha with h | h
      · rw [hin a h]; rfl
      · rw [hout a h]; rfl
    unfold WalletTx.unblinded_url
    rw [display_eq_commaJoin, hT]
    rw [show String.mk (commaJoin []) = "" from rfl, String.append_empty]
  · intro hbf
    have hmem : ∀ t ∈ ownedTuples tx,
        t ≠ [] ∧ t.head? ≠ some ',' ∧ t.getLast? ≠ some ',' := by
      intro t ht
      unfold ownedTuples at ht
      obtain ⟨a, ha, hfa⟩ := List.mem_filterMap.mp ht
      obtain ⟨w, rfl, rfl⟩ := Option.map_eq_some'.mp hfa
      exact tuple_head_last w.unblinded (hbf w ha)
    have h2 := commaJoin_head_last (ownedTuples tx) hmem
    rw [display_eq_commaJoin]
    exact h2

/-- Witness for C10: a transaction with three positions, none wallet-owned,
renders the bare URL with an empty fragment and no stray commas. -/
theorem claim_C10_empty_fragment_no_stray_commas_witness :
    WalletTx.unblinded_url
      ⟨⟨2⟩, "abc", none, [], 0, "incoming", none, [none], [none, none]⟩
      "https://blockstream.info/liquidtestnet/" =
      "https://blockstream.info/liquidtestnet/" ++ "tx/" ++ "abc" ++ "#blinded="
    ∧ ((DisplayWalletTxInputOutputs
          ⟨⟨2⟩, "abc", none, [], 0, "incoming", none, [none], [none, none]⟩).data.head?
        ≠ some ','
      ∧ (DisplayWalletTxInputOutputs
          ⟨⟨2⟩, "abc", none, [], 0, "incoming", none, [none], [none, none]⟩).data.getLast?
        ≠ some ',') :=
  ⟨(claim_C10_empty_fragment_no_stray_commas
      ⟨⟨2⟩, "abc", none, [], 0, "incoming", none, [none], [none, none]⟩
      "https://blockstream.info/liquidtestnet/").1 (by simp) (by simp),
   (claim_C10_empty_fragment_no_stray_commas
      ⟨⟨2⟩, "abc", none, [], 0, "incoming", none, [none], [none, none]⟩
      "https://blockstream.info/liquidtestnet/").2 (by simp)⟩

end LWK
